import Mathlib

/-!
Verification of the contact-management program `contacts_manager.py`.

The program is a single-file interactive contact book: a mapping from
contact names to records (phone, optional email, optional address, group,
created/updated timestamps), persisted as JSON, with handlers for add,
search, update, delete, CSV export and statistics.

The shallow embedding below models:
  * Python strings as Lean `String` (a list of characters); `str.strip`,
    `str.lower` and the substring test `in` are embedded on character
    lists (ASCII behaviour; the program only manipulates ASCII-relevant
    classes there);
  * the storage file `contacts_data.json` at the level of the JSON value
    it holds (a `Json` tree), since the program delegates the text layer
    entirely to the `json` library: `json.dump` becomes an encoder of the
    collection into `Json`, `json.load` a decoder;
  * each interactive handler as a function from the already-read input
    strings and the current state to the new state; the prompt loops in
    `add_contact` are modelled by returning `none` while the loop would
    re-prompt (an invalid input never completes the operation);
  * `datetime` values consumed by the statistics handler as integers
    counting seconds since an epoch aligned at midnight, so that
    `timedelta.days` is floor division by 86400 and the calendar day of a
    datetime is floor division of its second count by 86400;
  * timestamps stored in contacts as opaque strings (`isoformat` output);
    the statistics handler receives the `datetime.fromisoformat` parse as
    a function parameter.
-/

/-- Python `str.strip()`: remove leading and trailing whitespace. -/
def pyStrip (s : String) : String :=
  ⟨((s.data.dropWhile Char.isWhitespace).reverse.dropWhile Char.isWhitespace).reverse⟩

/-- Python `str.lower()` (ASCII case mapping). -/
def pyLower (s : String) : String :=
  ⟨s.data.map Char.toLower⟩

/-- Does the first list occur as a leading segment of the second? -/
def startsWithChars : List Char → List Char → Bool
  | [], _ => true
  | _ :: _, [] => false
  | a :: as, b :: bs => decide (a = b) && startsWithChars as bs

/-- Python substring test `needle in haystack`, checking a prefix match at
every start position. -/
def strIn (needle : List Char) : List Char → Bool
  | [] => startsWithChars needle []
  | c :: t => startsWithChars needle (c :: t) || strIn needle t

/-- `re.sub(r'\D', '', phone)`: delete every non-digit character. -/
def stripNonDigits (phone : String) : String :=
  ⟨phone.data.filter Char.isDigit⟩

/-- `validate_phone(phone)`: strip non-digits; succeed with the digit
string iff its length is between 10 and 15 inclusive, else `(False, None)`. -/
def validate_phone (phone : String) : Bool × Option String :=
  let digits := stripNonDigits phone
  if 10 ≤ digits.length ∧ digits.length ≤ 15 then
    (true, some digits)
  else
    (false, none)

/-- Character class `[a-zA-Z0-9._%+-]` (local part of the email pattern). -/
def emailLocalChar (c : Char) : Bool :=
  c.isAlpha || c.isDigit || decide (c = '.') || decide (c = '_') ||
    decide (c = '%') || decide (c = '+') || decide (c = '-')

/-- Character class `[a-zA-Z0-9.-]` (domain part of the email pattern). -/
def emailDomainChar (c : Char) : Bool :=
  c.isAlpha || c.isDigit || decide (c = '.') || decide (c = '-')

/-- `validate_email(email)`: the anchored pattern
`^[a-zA-Z0-9._%+-]+@[a-zA-Z0-9.-]+\.[a-zA-Z]{2,}$` matches iff the string
splits as `local ++ "@" ++ domain ++ "." ++ tld` with nonempty `local` over
the local class, nonempty `domain` over the domain class, and `tld` at
least two letters.  Neither class contains `@`, and the tld is letters
only, so the split is at the first `@` and the last `.` after it.  (The
Python `$` would also admit one trailing newline, unreachable here because
every caller strips its input first.) -/
def validate_email (email : String) : Bool :=
  let cs := email.data
  match cs.findIdx? (fun c => decide (c = '@')) with
  | none => false
  | some i =>
    let localPart := cs.take i
    let rest := cs.drop (i + 1)
    let tld := (rest.reverse.takeWhile (fun c => decide (c ≠ '.'))).reverse
    let domain := rest.take (rest.length - tld.length - 1)
    decide (localPart ≠ []) && localPart.all emailLocalChar &&
      decide (rest.length ≥ tld.length + 1) &&
      decide (domain ≠ []) && domain.all emailDomainChar &&
      decide (2 ≤ tld.length) && tld.all Char.isAlpha

/-- One stored contact record: the value of the per-name object in
`contacts_data.json`.  `email`/`address` are `None` when skipped. -/
structure Contact where
  phone : String
  email : Option String
  address : Option String
  group : String
  created_at : String
  updated_at : String
  deriving DecidableEq, Repr

/-- The in-memory collection: a name-keyed insertion-ordered mapping,
embedded as an association list with the dict's key order. -/
abbrev Collection := List (String × Contact)

/-- `name in contacts` / `contacts[name]`: first (only) binding of a key. -/
def findContact : Collection → String → Option Contact
  | [], _ => none
  | p :: t, name => if p.1 = name then some p.2 else findContact t name

/-- `contacts[name]["field"] = v` on an existing key: replace the record
stored under `name`, keeping the dict position. -/
def setContact (l : Collection) (name : String) (c : Contact) : Collection :=
  l.map (fun p => if p.1 = name then (p.1, c) else p)

/-- `contacts[name] = record`: overwrite in place when the key exists,
otherwise append at the end (dict insertion order). -/
def dictInsert (l : Collection) (name : String) (c : Contact) : Collection :=
  if (findContact l name).isSome then setContact l name c else l ++ [(name, c)]

/-- `del contacts[name]`: remove the binding of `name`. -/
def delKey (l : Collection) (name : String) : Collection :=
  l.filter (fun p => decide (p.1 ≠ name))

/-- The JSON values `json.dump` writes and `json.load` returns. -/
inductive Json where
  | null : Json
  | bool : Bool → Json
  | num : Int → Json
  | str : String → Json
  | arr : List Json → Json
  | obj : List (String × Json) → Json

/-- An optional string field as stored in the JSON record (`None` ⟶ `null`). -/
def optJson : Option String → Json
  | none => Json.null
  | some s => Json.str s

/-- One contact record as its JSON object, field order as written by the
program: phone, email, address, group, created_at, updated_at. -/
def contactToJson (c : Contact) : Json :=
  Json.obj [("phone", Json.str c.phone), ("email", optJson c.email),
    ("address", optJson c.address), ("group", Json.str c.group),
    ("created_at", Json.str c.created_at), ("updated_at", Json.str c.updated_at)]

/-- `json.dump(contacts, f)`: the whole collection as a JSON object
mapping each name to its record object. -/
def contactsToJson (l : Collection) : Json :=
  Json.obj (l.map (fun p => (p.1, contactToJson p.2)))

/-- Read back an optional string field (`null` or string). -/
def optJsonDec : Json → Option (Option String)
  | Json.null => some none
  | Json.str s => some (some s)
  | _ => none

/-- Parse one contact record object. -/
def contactFromJson : Json → Option Contact
  | Json.obj [("phone", Json.str p), ("email", e), ("address", a),
      ("group", Json.str g), ("created_at", Json.str cr),
      ("updated_at", Json.str u)] =>
    match optJsonDec e, optJsonDec a with
    | some e', some a' => some ⟨p, e', a', g, cr, u⟩
    | _, _ => none
  | _ => none

/-- Parse a stored collection: the top-level object, record by record. -/
def contactsFromJson : Json → Option Collection
  | Json.obj fs =>
    fs.mapM (fun p => (contactFromJson p.2).map (fun c => (p.1, c)))
  | _ => none

/-- The files the program touches: the in-memory collection, the contents
of `contacts_data.json` (`none` = file absent) and of `contacts.csv`
(`none` = never exported; otherwise the written lines). -/
structure FSState where
  contacts : Collection
  dataFile : Option Json
  csvFile : Option (List String)

/-- `save_contacts(contacts)`: rewrite `contacts_data.json` with the JSON
serialization of the whole collection. -/
def save_contacts (s : FSState) : FSState :=
  { s with dataFile := some (contactsToJson s.contacts) }

/-- `load_contacts()`: if the storage file exists parse it as the
collection (`none` if its contents are not a contact mapping), else start
fresh with the empty collection. -/
def load_contacts (s : FSState) : Option Collection :=
  match s.dataFile with
  | some j => contactsFromJson j
  | none => some []

/-- `add_contact(contacts)`, modelled on the completed pass of its prompt
loops: the arguments are the raw input lines finally accepted.  The loops
only exit with a stripped non-empty name, a phone accepted by
`validate_phone`, and a stripped email that is empty or valid, so inputs
on which the program would re-prompt yield `none` (the operation does not
complete with them).  `group` defaults to `"Other"` when blank; blank
email/address are stored as `None`; both timestamps are set to the current
time `now`; the collection is then persisted. -/
def add_contact (s : FSState) (nameRaw phoneRaw emailRaw addressRaw groupRaw : String)
    (now : String) : Option FSState :=
  let name := pyStrip nameRaw
  if name = "" then none else
  match validate_phone (pyStrip phoneRaw) with
  | (true, some cleaned) =>
    let email := pyStrip emailRaw
    if email ≠ "" ∧ validate_email email = false then none else
    let address := pyStrip addressRaw
    let group0 := pyStrip groupRaw
    let group := if group0 = "" then "Other" else group0
    let newRecord : Contact :=
      { phone := cleaned,
        email := if email = "" then none else some email,
        address := if address = "" then none else some address,
        group := group,
        created_at := now,
        updated_at := now }
    some (save_contacts { s with contacts := dictInsert s.contacts name newRecord })
  | _ => none

/-- `search_contact(contacts)`: lowercase the raw query (`input().lower()`,
no strip), collect in iteration order every contact whose lowercased name
contains it as a substring.  The handler only reads: the state is returned
untouched alongside the results. -/
def search_contact (s : FSState) (termRaw : String) : FSState × Collection :=
  let term := pyLower termRaw
  (s, s.contacts.foldl
    (fun results p =>
      if strIn term.data (pyLower p.1).data then results ++ [p] else results)
    [])

/-- The phone step of `update_contact`: a non-blank phone input is
applied only when `validate_phone` accepts it, storing the cleaned
digits; otherwise (blank or invalid) the record is unchanged. -/
def applyPhoneInput (c : Contact) (phone : String) : Contact :=
  if phone ≠ "" then
    match validate_phone phone with
    | (true, some cleaned) => { c with phone := cleaned }
    | _ => c
  else c

/-- The email step of `update_contact`: a non-blank email is applied only
when `validate_email` accepts it. -/
def applyEmailInput (c : Contact) (email : String) : Contact :=
  if email ≠ "" ∧ validate_email email = true then { c with email := some email } else c

/-- The address step of `update_contact`: a non-blank address is applied
unconditionally. -/
def applyAddressInput (c : Contact) (address : String) : Contact :=
  if address ≠ "" then { c with address := some address } else c

/-- The group step of `update_contact`: a non-blank group is applied
unconditionally. -/
def applyGroupInput (c : Contact) (group : String) : Contact :=
  if group ≠ "" then { c with group := group } else c

/-- `update_contact(contacts)`: look up the stripped name; absent ⟶ report
"Contact not found!" and change nothing.  Present ⟶ apply, in order, the
phone, email, address and group input steps; always refresh `updated_at`
to `now`, store the record back and persist.  The in-place field
assignments on the stored dict record are modelled as one replacement
with the final record. -/
def update_contact (s : FSState) (nameRaw phoneRaw emailRaw addressRaw groupRaw : String)
    (now : String) : FSState × String :=
  let name := pyStrip nameRaw
  match findContact s.contacts name with
  | none => (s, "Contact not found!")
  | some c0 =>
    let c1 := applyPhoneInput c0 (pyStrip phoneRaw)
    let c2 := applyEmailInput c1 (pyStrip emailRaw)
    let c3 := applyAddressInput c2 (pyStrip addressRaw)
    let c4 := applyGroupInput c3 (pyStrip groupRaw)
    let c5 := { c4 with updated_at := now }
    (save_contacts { s with contacts := setContact s.contacts name c5 },
      "✅ Contact updated successfully!")

/-- `delete_contact(contacts)`: look up the stripped name; if present
remove it and persist, else report "Contact not found!" without touching
anything. -/
def delete_contact (s : FSState) (nameRaw : String) : FSState × String :=
  let name := pyStrip nameRaw
  if (findContact s.contacts name).isSome then
    (save_contacts { s with contacts := delKey s.contacts name }, "✅ Contact deleted!")
  else
    (s, "Contact not found!")

/-- One CSV field as `csv.writer` renders it (QUOTE_MINIMAL): quoted, with
inner quotes doubled, only when it contains a comma, quote or line break. -/
def csvQuote (f : String) : String :=
  if f.data.any (fun c =>
      decide (c = ',') || decide (c = '"') || decide (c = '\n') || decide (c = '\r')) then
    "\"" ++ ⟨f.data.foldr (fun c acc =>
      if c = '"' then '"' :: '"' :: acc else c :: acc) []⟩ ++ "\""
  else f

/-- A `None` field is written by `csv.writer` as the empty string. -/
def csvOptField : Option String → String
  | none => ""
  | some v => v

/-- One `writer.writerow(fields)` call: the comma-joined quoted fields
plus the default `\r\n` terminator. -/
def csvRow (fields : List String) : String :=
  String.intercalate "," (fields.map csvQuote) ++ "\r\n"

/-- The data row written for one contact: name, phone, email, address,
group, with `None` as empty. -/
def csvContactRow (p : String × Contact) : String :=
  csvRow [p.1, p.2.phone, csvOptField p.2.email, csvOptField p.2.address, p.2.group]

/-- `export_to_csv(contacts)`: rewrite `contacts.csv` with the fixed
header row then one row per contact in collection order.  The primary
storage file and the collection are untouched. -/
def export_to_csv (s : FSState) : FSState :=
  let lines :=
    csvRow ["Name", "Phone", "Email", "Address", "Group"] :: s.contacts.map csvContactRow
  { s with csvFile := some lines }

/-- `timedelta.days` of a difference of `diffSeconds` seconds: floor
division by 86400 (Python normalizes timedeltas so `.days` is the floor). -/
def timedeltaDays (diffSeconds : Int) : Int :=
  diffSeconds.fdiv 86400

/-- The calendar day a datetime falls on, with datetimes counted in
seconds since a midnight-aligned epoch. -/
def calendarDay (t : Int) : Int :=
  t.fdiv 86400

/-- The "Recently Updated" count of `view_statistics(contacts)`: over the
collection, count the contacts with `(datetime.now() - updated).days <= 7`
where `updated = datetime.fromisoformat(info["updated_at"])`.  `fromiso`
is the parse `datetime.fromisoformat`, giving seconds since the epoch, and
`now` is `datetime.now()` in the same scale. -/
def view_statistics_recent (fromiso : String → Int) (now : Int)
    (contacts : Collection) : Nat :=
  contacts.foldl
    (fun recent p =>
      if timedeltaDays (now - fromiso p.2.updated_at) ≤ 7 then recent + 1 else recent)
    0

/-- The count as the specification words it for "Recently Updated":
contacts whose `updated_at` is within 7 days of the current time,
inclusive, measured by calendar-day difference.  Stated here as a second
definition to compare against `view_statistics_recent`. -/
def specCalendarRecentCount (fromiso : String → Int) (now : Int)
    (contacts : Collection) : Nat :=
  (contacts.filter (fun p =>
    decide ((calendarDay now - calendarDay (fromiso p.2.updated_at)).natAbs ≤ 7))).length

/-- The digit-only projection of a string as the specification words it:
the string obtained by deleting every non-digit character.  Stated here as
a second definition to compare against what `validate_phone` computes. -/
def digitOnlyProjection (s : String) : String :=
  ⟨s.data.filter Char.isDigit⟩

/-- The phone invariant of the data model: digits only, length 10–15. -/
def phoneOk (p : String) : Bool :=
  p.data.all Char.isDigit && decide (10 ≤ p.length) && decide (p.length ≤ 15)

/-- The phone invariant over a whole collection. -/
def PhonesValid (l : Collection) : Prop :=
  ∀ p ∈ l, phoneOk p.2.phone = true

/-- A concrete contact record used to instantiate the theorems below. -/
def sampleContact : Contact :=
  { phone := "5551234567", email := none, address := none, group := "Other",
    created_at := "2026-10-01T00:00:00", updated_at := "2026-10-01T00:00:00" }

/-- A second concrete contact record, with every optional field present. -/
def sampleContact2 : Contact :=
  { phone := "447911123456", email := some "nat@mail.example.com",
    address := some "1 Main St", group := "Work",
    created_at := "2026-10-02T09:30:00", updated_at := "2026-10-03T10:00:00" }

/-! ### Helper lemmas -/

theorem startsWithChars_iff (n h : List Char) :
    startsWithChars n h = true ↔ ∃ t, h = n ++ t := by
  induction n generalizing h with
  | nil => simp [startsWithChars]
  | cons a as ih =>
    cases h with
    | nil => simp [startsWithChars]
    | cons b bs =>
      simp only [startsWithChars, Bool.and_eq_true, decide_eq_true_eq, ih,
        List.cons_append, List.cons.injEq]
      constructor
      · rintro ⟨rfl, t, rfl⟩
        exact ⟨t, rfl, rfl⟩
      · rintro ⟨t, rfl, rfl⟩
        exact ⟨rfl, t, rfl⟩

theorem strIn_iff (n h : List Char) :
    strIn n h = true ↔ ∃ p q, h = p ++ n ++ q := by
  induction h with
  | nil =>
    rw [show strIn n [] = startsWithChars n [] from rfl, startsWithChars_iff]
    constructor
    · rintro ⟨t, ht⟩
      exact ⟨[], t, by simpa using ht⟩
    · rintro ⟨p, q, hpq⟩
      rcases List.append_eq_nil.mp (List.append_eq_nil.mp hpq.symm).1 with ⟨rfl, rfl⟩
      exact ⟨q, by simpa using hpq⟩
  | cons c t ih =>
    rw [show strIn n (c :: t) = (startsWithChars n (c :: t) || strIn n t) from rfl]
    simp only [Bool.or_eq_true, startsWithChars_iff, ih]
    constructor
    · rintro (⟨r, hr⟩ | ⟨p, q, hpq⟩)
      · exact ⟨[], r, by simpa using hr⟩
      · exact ⟨c :: p, q, by simp [hpq]⟩
    · rintro ⟨p, q, hpq⟩
      cases p with
      | nil =>
        exact Or.inl ⟨q, by simpa using hpq⟩
      | cons a p' =>
        simp only [List.cons_append, List.cons.injEq] at hpq
        exact Or.inr ⟨p', q, hpq.2⟩

theorem foldl_filter_append {α : Type} (f : α → Bool) (l acc : List α) :
    l.foldl (fun res p => if f p then res ++ [p] else res) acc = acc ++ l.filter f := by
  induction l generalizing acc with
  | nil => simp
  | cons a t ih => by_cases h : f a = true <;> simp [h, ih]

theorem foldl_count {α : Type} (f : α → Bool) (l : List α) (n : Nat) :
    l.foldl (fun r p => if f p then r + 1 else r) n = n + (l.filter f).length := by
  induction l generalizing n with
  | nil => simp
  | cons a t ih =>
    by_cases h : f a = true
    · simp [h, ih]
      omega
    · simp [h, ih]

theorem findContact_mem {l : Collection} {name : String} {c : Contact}
    (h : findContact l name = some c) : (name, c) ∈ l := by
  induction l with
  | nil => simp [findContact] at h
  | cons p t ih =>
    rw [findContact] at h
    by_cases hp : p.1 = name
    · rw [if_pos hp] at h
      have hc : p.2 = c := Option.some.inj h
      have hpc : p = (name, c) := by
        rw [← hp, ← hc]
      rw [← hpc]
      exact List.mem_cons_self _ _
    · rw [if_neg hp] at h
      exact List.mem_cons_of_mem _ (ih h)

theorem findContact_setContact_self {l : Collection} {name : String}
    (h : (findContact l name).isSome) (c : Contact) :
    findContact (setContact l name c) name = some c := by
  induction l with
  | nil => simp [findContact] at h
  | cons p t ih =>
    rw [findContact] at h
    by_cases hp : p.1 = name
    · simp [setContact, findContact, hp]
    · rw [if_neg hp] at h
      simpa [setContact, findContact, hp] using ih h

theorem findContact_cons (a : String) (b : Contact) (t : Collection) (k : String) :
    findContact ((a, b) :: t) k = if a = k then some b else findContact t k := rfl

theorem findContact_setContact_ne {l : Collection} {name k : String}
    (hk : k ≠ name) (c : Contact) :
    findContact (setContact l name c) k = findContact l k := by
  have hnk : name ≠ k := fun hh => hk hh.symm
  induction l with
  | nil => rfl
  | cons p t ih =>
    obtain ⟨a, b⟩ := p
    rw [setContact, List.map_cons]
    by_cases hp : a = name
    · rw [if_pos hp]
      have hak : ¬ a = k := by rw [hp]; exact hnk
      rw [findContact_cons, if_neg hak, findContact_cons, if_neg hak]
      exact ih
    · rw [if_neg hp]
      rw [findContact_cons, findContact_cons]
      by_cases hq : a = k
      · rw [if_pos hq, if_pos hq]
      · rw [if_neg hq, if_neg hq]
        exact ih

theorem findContact_delKey_self (l : Collection) (name : String) :
    findContact (delKey l name) name = none := by
  induction l with
  | nil => rfl
  | cons p t ih =>
    by_cases hp : p.1 = name
    · simpa [delKey, hp] using ih
    · simpa [delKey, findContact, hp] using ih

theorem findContact_delKey_ne {l : Collection} {name k : String} (hk : k ≠ name) :
    findContact (delKey l name) k = findContact l k := by
  have hnk : name ≠ k := fun hh => hk hh.symm
  induction l with
  | nil => rfl
  | cons p t ih =>
    obtain ⟨a, b⟩ := p
    rw [delKey, List.filter_cons]
    by_cases hp : a = name
    · rw [if_neg (by simp [hp])]
      have hak : ¬ a = k := by rw [hp]; exact hnk
      rw [findContact_cons, if_neg hak]
      exact ih
    · rw [if_pos (by simp [hp])]
      rw [findContact_cons, findContact_cons]
      by_cases hq : a = k
      · rw [if_pos hq, if_pos hq]
      · rw [if_neg hq, if_neg hq]
        exact ih

theorem mem_setContact {l : Collection} {name : String} {c : Contact}
    {p : String × Contact} (h : p ∈ setContact l name c) : p.2 = c ∨ p ∈ l := by
  rw [setContact, List.mem_map] at h
  obtain ⟨q, hq, hqe⟩ := h
  by_cases hn : q.1 = name
  · rw [if_pos hn] at hqe
    left
    rw [← hqe]
  · rw [if_neg hn] at hqe
    right
    rw [← hqe]
    exact hq

theorem mem_dictInsert {l : Collection} {name : String} {c : Contact}
    {p : String × Contact} (h : p ∈ dictInsert l name c) : p.2 = c ∨ p ∈ l := by
  rw [dictInsert] at h
  by_cases hs : (findContact l name).isSome
  · rw [if_pos hs] at h
    exact mem_setContact h
  · rw [if_neg hs] at h
    rcases List.mem_append.mp h with hl | hr
    · exact Or.inr hl
    · left
      rw [List.mem_singleton.mp hr]

theorem mem_delKey {l : Collection} {name : String} {p : String × Contact}
    (h : p ∈ delKey l name) : p ∈ l :=
  List.mem_of_mem_filter h

theorem validate_phone_ok {raw d : String}
    (h : validate_phone raw = (true, some d)) : phoneOk d = true := by
  rw [validate_phone] at h
  by_cases hc : 10 ≤ (stripNonDigits raw).length ∧ (stripNonDigits raw).length ≤ 15
  · rw [if_pos hc] at h
    have hd : stripNonDigits raw = d := Option.some.inj (congrArg Prod.snd h)
    rw [← hd]
    have hall : (stripNonDigits raw).data.all Char.isDigit = true := by
      rw [stripNonDigits]
      exact List.all_eq_true.mpr (fun c hc => List.of_mem_filter hc)
    rw [phoneOk, hall]
    simp [hc.1, hc.2]
  · rw [if_neg hc] at h
    exact absurd (congrArg Prod.fst h) (by simp)

theorem validate_phone_shape (raw : String) :
    validate_phone raw = (true, some (stripNonDigits raw)) ∨
      validate_phone raw = (false, none) := by
  rw [validate_phone]
  by_cases hc : 10 ≤ (stripNonDigits raw).length ∧ (stripNonDigits raw).length ≤ 15
  · rw [if_pos hc]
    exact Or.inl rfl
  · rw [if_neg hc]
    exact Or.inr rfl

theorem contactFromJson_contactToJson (c : Contact) :
    contactFromJson (contactToJson c) = some c := by
  obtain ⟨p, e, a, g, cr, u⟩ := c
  cases e <;> cases a <;> rfl

theorem contactsFromJson_contactsToJson (l : Collection) :
    contactsFromJson (contactsToJson l) = some l := by
  rw [contactsToJson, contactsFromJson]
  induction l with
  | nil => rfl
  | cons p t ih =>
    rw [List.map_cons, List.mapM_cons]
    rw [contactFromJson_contactToJson]
    simp only [Option.map_some, Option.bind_eq_bind, Option.some_bind]
    rw [ih]
    simp

theorem timedeltaDays_le_seven_iff (d : Int) :
    timedeltaDays d ≤ 7 ↔ d < 8 * 86400 := by
  rw [timedeltaDays, Int.fdiv_eq_ediv d (by norm_num : (0 : Int) ≤ 86400)]
  omega

theorem view_statistics_recent_count (fromiso : String → Int) (now : Int)
    (l : Collection) (n : Nat) :
    l.foldl
        (fun recent p =>
          if timedeltaDays (now - fromiso p.2.updated_at) ≤ 7 then recent + 1 else recent)
        n =
      n + (l.filter
        (fun p => decide (timedeltaDays (now - fromiso p.2.updated_at) ≤ 7))).length := by
  induction l generalizing n with
  | nil => simp
  | cons a t ih =>
    by_cases h : timedeltaDays (now - fromiso a.2.updated_at) ≤ 7
    · simp [h, ih]
      omega
    · simp [h, ih]

/-! ### Claim theorems -/

/-- C1: `validate_phone` succeeds exactly when the digit-only projection
of its input (the string obtained by deleting every non-digit character)
has length between 10 and 15 inclusive; on success the returned normalized
value is exactly that projection, and on failure no normalized value is
returned. -/
theorem c1_validate_phone_correct (s : String) :
    ((validate_phone s).1 = true ↔
      10 ≤ (digitOnlyProjection s).length ∧ (digitOnlyProjection s).length ≤ 15) ∧
    ((validate_phone s).1 = true →
      (validate_phone s).2 = some (digitOnlyProjection s)) ∧
    ((validate_phone s).1 = false → (validate_phone s).2 = none) := by
  have hd : digitOnlyProjection s = stripNonDigits s := rfl
  rw [hd]
  simp only [validate_phone]
  by_cases hc : 10 ≤ (stripNonDigits s).length ∧ (stripNonDigits s).length ≤ 15
  · rw [if_pos hc]
    exact ⟨⟨fun _ => hc, fun _ => rfl⟩, fun _ => rfl, fun h => absurd h (by simp)⟩
  · rw [if_neg hc]
    exact ⟨⟨fun h => absurd h (by simp), fun h => absurd h hc⟩,
      fun h => absurd h (by simp), fun _ => rfl⟩

/-- C1 witness: the theorem applied at the concrete input
"(555) 123-4567", whose digit projection "5551234567" has length 10. -/
theorem c1_validate_phone_correct_witness :
    (validate_phone "(555) 123-4567").2 = some (digitOnlyProjection "(555) 123-4567") :=
  (c1_validate_phone_correct "(555) 123-4567").2.1 (by decide)

/-- C2: loading the storage file immediately after saving any collection
returns exactly that collection (save/load round-trip through the JSON
representation). -/
theorem c2_save_load_roundtrip (C : Collection) (s : FSState) :
    load_contacts (save_contacts { s with contacts := C }) = some C := by
  simp only [save_contacts, load_contacts]
  exact contactsFromJson_contactsToJson C

/-- C10: searching with the empty query returns the whole collection (the
empty needle is a substring of every name) and leaves the state unchanged. -/
theorem c10_search_empty_query (s : FSState) :
    search_contact s "" = (s, s.contacts) := by
  have hstr : ∀ h : List Char, strIn [] h = true := by
    intro h
    cases h <;> rfl
  simp only [search_contact]
  rw [foldl_filter_append]
  rw [List.nil_append]
  refine congrArg (Prod.mk s) ?_
  apply List.filter_eq_self.mpr
  intro p _
  exact hstr _

/-- C4 counterexample: the code's "Recently Updated" test is
`(now - updated).days <= 7`, the floor of the elapsed time in days — not a
calendar-day difference.  With `updated_at` at 23:00 of day 0 and the
current time at 22:00 of day 8 (elapsed 7 days 23 hours, calendar-day
difference 8), the program counts the contact while the claimed
calendar-day rule does not. -/
theorem c4_recent_calendar_counterexample :
    view_statistics_recent (fun _ => 82800) 770400 [("A", sampleContact)] = 1 ∧
      specCalendarRecentCount (fun _ => 82800) 770400 [("A", sampleContact)] = 0 := by
  constructor <;> decide

/-- C4 (amended): the statistics operation reports as "Recently Updated"
exactly the number of contacts whose `updated_at` lies strictly less than
8 days (8 × 86400 seconds) before the current time — the floor of the
elapsed time in days is at most 7 — including contacts whose `updated_at`
is in the future; the measure is elapsed time, not calendar-day
difference. -/
theorem c4_recent_amended (fromiso : String → Int) (now : Int) (contacts : Collection) :
    view_statistics_recent fromiso now contacts =
      (contacts.filter
        (fun p => decide (now - fromiso p.2.updated_at < 8 * 86400))).length := by
  rw [view_statistics_recent, view_statistics_recent_count, Nat.zero_add]
  congr 1
  apply List.filter_congr
  intro p _
  rw [decide_eq_decide]
  exact timedeltaDays_le_seven_iff _

/-- C6: updating a name that is not in the collection reports "Contact
not found!" and has no side effects at all: the returned state is the
input state (collection, storage file and export file unchanged, no
timestamp refreshed, nothing persisted). -/
theorem c6_update_not_found (s : FSState)
    (nameRaw phoneRaw emailRaw addressRaw groupRaw now : String)
    (h : findContact s.contacts (pyStrip nameRaw) = none) :
    update_contact s nameRaw phoneRaw emailRaw addressRaw groupRaw now =
      (s, "Contact not found!") := by
  simp only [update_contact]
  rw [h]

/-- C6 witness: the theorem applied to a one-contact collection and the
absent name "Zoe". -/
theorem c6_update_not_found_witness :
    update_contact ⟨[("Alice", sampleContact)], none, none⟩ "Zoe" "1" "2" "3" "4" "T" =
      (⟨[("Alice", sampleContact)], none, none⟩, "Contact not found!") :=
  c6_update_not_found ⟨[("Alice", sampleContact)], none, none⟩ "Zoe" "1" "2" "3" "4" "T"
    (by decide)

/-- C5: deleting a present name removes exactly that entry (the name no
longer resolves, every other name resolves as before, the new collection
is the old one minus that key) and persists the collection to the storage
file; deleting an absent name reports "Contact not found!" and leaves the
state entirely unchanged, persisting nothing. -/
theorem c5_delete_exact (s : FSState) (nameRaw : String) :
    ((findContact s.contacts (pyStrip nameRaw)).isSome = true →
      (delete_contact s nameRaw).2 = "✅ Contact deleted!" ∧
      (delete_contact s nameRaw).1.contacts = delKey s.contacts (pyStrip nameRaw) ∧
      findContact (delete_contact s nameRaw).1.contacts (pyStrip nameRaw) = none ∧
      (∀ k, k ≠ pyStrip nameRaw →
        findContact (delete_contact s nameRaw).1.contacts k = findContact s.contacts k) ∧
      (delete_contact s nameRaw).1.dataFile =
        some (contactsToJson (delete_contact s nameRaw).1.contacts) ∧
      (delete_contact s nameRaw).1.csvFile = s.csvFile) ∧
    ((findContact s.contacts (pyStrip nameRaw)).isSome = false →
      delete_contact s nameRaw = (s, "Contact not found!")) := by
  constructor
  · intro h
    have key : delete_contact s nameRaw =
        (save_contacts { s with contacts := delKey s.contacts (pyStrip nameRaw) },
          "✅ Contact deleted!") := by
      simp only [delete_contact, if_pos h]
    rw [key]
    exact ⟨rfl, rfl, findContact_delKey_self _ _,
      fun k hk => findContact_delKey_ne hk, rfl, rfl⟩
  · intro h
    simp [delete_contact, h]

/-- C5 witness: the theorem applied to concrete two-contact and
one-contact collections, on a present and an absent name. -/
theorem c5_delete_exact_witness :
    (delete_contact ⟨[("Alice", sampleContact), ("Bob", sampleContact2)], none, none⟩
        "Alice").1.contacts =
      delKey [("Alice", sampleContact), ("Bob", sampleContact2)] "Alice" ∧
    delete_contact ⟨[("Alice", sampleContact)], none, none⟩ "Zoe" =
      (⟨[("Alice", sampleContact)], none, none⟩, "Contact not found!") :=
  ⟨((c5_delete_exact ⟨[("Alice", sampleContact), ("Bob", sampleContact2)], none, none⟩
      "Alice").1 (by decide)).2.1,
    (c5_delete_exact ⟨[("Alice", sampleContact)], none, none⟩ "Zoe").2 (by decide)⟩

/-- C3: updating an existing contact with all four field inputs blank
stores back the same record with only `updated_at` refreshed to the
current time (phone, email, address, group and `created_at` are kept),
leaves every other name resolving as before, persists the collection to
the storage file, and does not touch the export file. -/
theorem c3_update_blank_only_updated_at (s : FSState) (nameRaw now : String) (c : Contact)
    (h : findContact s.contacts (pyStrip nameRaw) = some c) :
    (update_contact s nameRaw "" "" "" "" now).2 = "✅ Contact updated successfully!" ∧
    findContact (update_contact s nameRaw "" "" "" "" now).1.contacts (pyStrip nameRaw) =
      some { c with updated_at := now } ∧
    (∀ k, k ≠ pyStrip nameRaw →
      findContact (update_contact s nameRaw "" "" "" "" now).1.contacts k =
        findContact s.contacts k) ∧
    (update_contact s nameRaw "" "" "" "" now).1.dataFile =
      some (contactsToJson
        (update_contact s nameRaw "" "" "" "" now).1.contacts) ∧
    (update_contact s nameRaw "" "" "" "" now).1.csvFile = s.csvFile := by
  have hblank : pyStrip "" = "" := rfl
  have key : update_contact s nameRaw "" "" "" "" now =
      (save_contacts
        { s with contacts := setContact s.contacts (pyStrip nameRaw) { c with updated_at := now } },
        "✅ Contact updated successfully!") := by
    simp only [update_contact, h, hblank]
    simp [applyPhoneInput, applyEmailInput, applyAddressInput, applyGroupInput]
  rw [key]
  refine ⟨rfl, ?_, ?_, rfl, rfl⟩
  · exact findContact_setContact_self (by rw [h]; rfl) _
  · intro k hk
    exact findContact_setContact_ne hk _

/-- C3 witness: the theorem applied to a concrete collection holding
"Alice" and "Bob", updating "Alice" with blank inputs at time "T". -/
theorem c3_update_blank_only_updated_at_witness :
    findContact
        (update_contact ⟨[("Alice", sampleContact), ("Bob", sampleContact2)], none, none⟩
          "Alice" "" "" "" "" "T").1.contacts "Alice" =
      some { sampleContact with updated_at := "T" } :=
  (c3_update_blank_only_updated_at
      ⟨[("Alice", sampleContact), ("Bob", sampleContact2)], none, none⟩
      "Alice" "T" sampleContact (by decide)).2.1

/-- C8: export writes to contacts.csv exactly the fixed header row
"Name,Phone,Email,Address,Group" followed by one data row per contact in
collection order, with missing optional fields rendered as the empty
string; an empty collection produces only the header row; the collection
and the primary storage file are untouched. -/
theorem c8_export_csv (s : FSState) :
    (export_to_csv s).contacts = s.contacts ∧
    (export_to_csv s).dataFile = s.dataFile ∧
    (export_to_csv s).csvFile =
      some ("Name,Phone,Email,Address,Group\r\n" :: s.contacts.map csvContactRow) ∧
    (∀ name c, csvContactRow (name, c) =
      csvRow [name, c.phone, csvOptField c.email, csvOptField c.address, c.group]) ∧
    csvOptField none = "" ∧
    (s.contacts = [] →
      (export_to_csv s).csvFile = some ["Name,Phone,Email,Address,Group\r\n"]) := by
  have hh : csvRow ["Name", "Phone", "Email", "Address", "Group"] =
      "Name,Phone,Email,Address,Group\r\n" := by decide
  refine ⟨rfl, rfl, ?_, fun _ _ => rfl, rfl, ?_⟩
  · simp only [export_to_csv, hh]
  · intro he
    simp only [export_to_csv, hh, he, List.map_nil]

/-- C8 witness: the theorem applied to the empty collection. -/
theorem c8_export_csv_witness :
    (export_to_csv ⟨[], none, none⟩).csvFile = some ["Name,Phone,Email,Address,Group\r\n"] :=
  (c8_export_csv ⟨[], none, none⟩).2.2.2.2.2 rfl

/-- C7: search returns, in collection iteration order, exactly the
contacts whose lowercased name contains the lowercased query as a
substring: the result equals the corresponding filter of the collection,
a pair belongs to it iff it is in the collection and its name contains
the query case-insensitively, the result is a sublist of the collection
(iteration order), and the state — collection and files — is unchanged;
searching "ali" among "Alice" and "Natalie" returns both. -/
theorem c7_search_case_insensitive :
    (∀ (s : FSState) (q : String),
      (search_contact s q).1 = s ∧
      (search_contact s q).2 =
        s.contacts.filter (fun p => strIn (pyLower q).data (pyLower p.1).data) ∧
      (∀ p : String × Contact,
        p ∈ (search_contact s q).2 ↔
          p ∈ s.contacts ∧ ∃ u v, (pyLower p.1).data = u ++ (pyLower q).data ++ v) ∧
      List.Sublist (search_contact s q).2 s.contacts) ∧
    (∀ cA cN : Contact,
      (search_contact ⟨[("Alice", cA), ("Natalie", cN)], none, none⟩ "ali").2 =
        [("Alice", cA), ("Natalie", cN)]) := by
  have hfilter : ∀ (s : FSState) (q : String),
      (search_contact s q).2 =
        s.contacts.filter (fun p => strIn (pyLower q).data (pyLower p.1).data) := by
    intro s q
    simp only [search_contact]
    rw [foldl_filter_append, List.nil_append]
  constructor
  · intro s q
    refine ⟨rfl, hfilter s q, ?_, ?_⟩
    · intro p
      rw [hfilter, List.mem_filter]
      constructor
      · rintro ⟨hmem, hstr⟩
        exact ⟨hmem, (strIn_iff _ _).mp hstr⟩
      · rintro ⟨hmem, u, v, huv⟩
        exact ⟨hmem, (strIn_iff _ _).mpr ⟨u, v, huv⟩⟩
    · rw [hfilter]
      exact List.filter_sublist _
  · intro cA cN
    rw [hfilter]
    have h1 : strIn (pyLower "ali").data (pyLower "Alice").data = true := by decide
    have h2 : strIn (pyLower "ali").data (pyLower "Natalie").data = true := by decide
    simp [List.filter_cons, h1, h2]

theorem delete_preserves_phones {s : FSState} (hs : PhonesValid s.contacts)
    (nameRaw : String) :
    PhonesValid (delete_contact s nameRaw).1.contacts := by
  by_cases h : (findContact s.contacts (pyStrip nameRaw)).isSome = true
  · have key : (delete_contact s nameRaw).1.contacts = delKey s.contacts (pyStrip nameRaw) := by
      simp only [delete_contact, if_pos h, save_contacts]
    rw [key]
    intro p hp
    exact hs p (mem_delKey hp)
  · have key : delete_contact s nameRaw = (s, "Contact not found!") := by
      simp only [delete_contact]
      rw [if_neg h]
    rw [key]
    exact hs

theorem applyPhoneInput_ok {c : Contact} (hc : phoneOk c.phone = true) (ph : String) :
    phoneOk (applyPhoneInput c ph).phone = true := by
  rw [applyPhoneInput]
  split
  · rcases validate_phone_shape ph with hv | hv <;> rw [hv]
    · exact validate_phone_ok hv
    · exact hc
  · exact hc

theorem applyEmailInput_phone (c : Contact) (e : String) :
    (applyEmailInput c e).phone = c.phone := by
  rw [applyEmailInput]
  split <;> rfl

theorem applyAddressInput_phone (c : Contact) (a : String) :
    (applyAddressInput c a).phone = c.phone := by
  rw [applyAddressInput]
  split <;> rfl

theorem applyGroupInput_phone (c : Contact) (g : String) :
    (applyGroupInput c g).phone = c.phone := by
  rw [applyGroupInput]
  split <;> rfl

theorem update_preserves_phones {s : FSState} (hs : PhonesValid s.contacts)
    (nameRaw phoneRaw emailRaw addressRaw groupRaw now : String) :
    PhonesValid (update_contact s nameRaw phoneRaw emailRaw addressRaw groupRaw now).1.contacts := by
  simp only [update_contact]
  cases hf : findContact s.contacts (pyStrip nameRaw) with
  | none => exact hs
  | some c0 =>
    intro p hp
    dsimp only [save_contacts] at hp
    rcases mem_setContact hp with h2 | h2
    · rw [h2]
      show phoneOk (applyGroupInput (applyAddressInput (applyEmailInput
        (applyPhoneInput c0 (pyStrip phoneRaw)) (pyStrip emailRaw)) (pyStrip addressRaw))
          (pyStrip groupRaw)).phone = true
      rw [applyGroupInput_phone, applyAddressInput_phone, applyEmailInput_phone]
      exact applyPhoneInput_ok (hs _ (findContact_mem hf)) _
    · exact hs p h2

theorem add_preserves_phones {s : FSState} (hs : PhonesValid s.contacts)
    (nameRaw phoneRaw emailRaw addressRaw groupRaw now : String) (s' : FSState)
    (hadd : add_contact s nameRaw phoneRaw emailRaw addressRaw groupRaw now = some s') :
    PhonesValid s'.contacts := by
  simp only [add_contact] at hadd
  by_cases hname : pyStrip nameRaw = ""
  · rw [if_pos hname] at hadd
    exact absurd hadd (by simp)
  · rw [if_neg hname] at hadd
    rcases validate_phone_shape (pyStrip phoneRaw) with hv | hv
    · rw [hv] at hadd
      dsimp only at hadd
      by_cases hem : pyStrip emailRaw ≠ "" ∧ validate_email (pyStrip emailRaw) = false
      · rw [if_pos hem] at hadd
        exact absurd hadd (by simp)
      · rw [if_neg hem] at hadd
        have hX := Option.some.inj hadd
        rw [← hX]
        intro p hp
        dsimp only [save_contacts] at hp
        rcases mem_dictInsert hp with h2 | h2
        · rw [h2]
          exact validate_phone_ok hv
        · exact hs p h2
    · rw [hv] at hadd
      simp at hadd

/-- C9: every mutating operation preserves the phone invariant (each
stored phone is digits-only with length between 10 and 15): a completed
add stores exactly the normalized output of a successful
`validate_phone`, update replaces a stored phone only with such a
normalized output, and delete only removes entries. -/
theorem c9_phone_invariant (s : FSState) (hs : PhonesValid s.contacts)
    (nameRaw phoneRaw emailRaw addressRaw groupRaw now : String) :
    (∀ s', add_contact s nameRaw phoneRaw emailRaw addressRaw groupRaw now = some s' →
      PhonesValid s'.contacts) ∧
    PhonesValid
      (update_contact s nameRaw phoneRaw emailRaw addressRaw groupRaw now).1.contacts ∧
    PhonesValid (delete_contact s nameRaw).1.contacts :=
  ⟨fun s' hadd => add_preserves_phones hs nameRaw phoneRaw emailRaw addressRaw groupRaw now s' hadd,
    update_preserves_phones hs nameRaw phoneRaw emailRaw addressRaw groupRaw now,
    delete_preserves_phones hs nameRaw⟩

/-- C9 witness: the theorem applied to a concrete one-contact collection,
updating "Alice" with the raw phone "(555) 000-1111". -/
theorem c9_phone_invariant_witness :
    PhonesValid
      (update_contact ⟨[("Alice", sampleContact)], none, none⟩
        "Alice" "(555) 000-1111" "" "" "" "T").1.contacts :=
  (c9_phone_invariant ⟨[("Alice", sampleContact)], none, none⟩
    (by unfold PhonesValid; decide) "Alice" "(555) 000-1111" "" "" "" "T").2.1
